import Mathlib

/-!
Shallow embedding of the PyEnergyDiagrams `ED` class
(`energydiagram/energydiagram.py`): the diagram model (`add_level`,
`add_link`, `add_arrow`), the auto-scale algorithm (`__auto_adjust`), the
per-level segment coordinates (`get_level_line`), and the render-time
geometry of links, link labels and gap arrows (`plot`).  Python floats are
modelled as rationals (reals where trigonometry is involved); Python
exceptions are modelled as `Except` / returned error options.
-/

/-- Values stored in a matplotlib-style keyword dictionary. -/
inductive SVal where
  | str (s : String)
  | num (q : ℚ)
deriving DecidableEq, Repr

/-- A Python keyword dictionary, as an association list. -/
abbrev StyleDict := List (String × SVal)

/-- Membership test for a key, modelling Python `k in d`. -/
def hasKey (d : StyleDict) (k : String) : Bool :=
  d.any (fun p => p.1 == k)

/-- Right-biased dictionary union, modelling Python `a | b`. -/
def dictUnion (a b : StyleDict) : StyleDict :=
  a.filter (fun p => (b.find? (fun q => q.1 == p.1)).isNone) ++ b

/-- Decimal digit character: `digitCh d` is the character for `d % 10`. -/
def digitCh (d : ℕ) : Char :=
  Char.ofNat (48 + d % 10)

/-- Little-endian decimal digits of `n`, driven by explicit fuel. -/
def natDigitsLE (fuel n : ℕ) : List ℕ :=
  match fuel with
  | 0 => []
  | f + 1 => if n < 10 then [n] else n % 10 :: natDigitsLE f (n / 10)

/-- Decimal digit characters of a natural number, most significant first. -/
def natChars (n : ℕ) : List Char :=
  (natDigitsLE (n + 1) n).reverse.map digitCh

/-- Decimal rendering of a natural number. -/
def natStr (n : ℕ) : String :=
  ⟨natChars n⟩

/-- Integer power of ten as a rational. -/
def pow10 (k : ℤ) : ℚ :=
  if 0 ≤ k then ((10 : ℚ) ^ k.toNat) else 1 / (10 : ℚ) ^ (-k).toNat

/-- Number of decimal digits of `n`, driven by explicit fuel. -/
def numDigitsAux (fuel n : ℕ) : ℕ :=
  match fuel with
  | 0 => 0
  | f + 1 => if n < 10 then 1 else numDigitsAux f (n / 10) + 1

/-- Number of decimal digits of a natural number. -/
def numDigits (n : ℕ) : ℕ :=
  numDigitsAux (n + 1) n

/-- Floor of the base-ten logarithm of a positive rational. -/
def floorLog10 (q : ℚ) : ℤ :=
  let t : ℤ := (numDigits q.num.natAbs : ℤ) - (numDigits q.den : ℤ)
  if pow10 t ≤ q then t else t - 1

/-- Round to the nearest integer, ties to the even integer, as done by
CPython when rendering a value with `format`. -/
def roundHalfEven (q : ℚ) : ℤ :=
  let f := ⌊q⌋
  let r := q - (f : ℚ)
  if r < 1 / 2 then f
  else if 1 / 2 < r then f + 1
  else if f % 2 = 0 then f else f + 1

/-- Drop trailing zero digits from a most-significant-first digit list. -/
def stripZeros (ds : List ℕ) : List ℕ :=
  (ds.reverse.dropWhile (fun d => d == 0)).reverse

/-- Fixed-notation rendering of `0.d₁d₂… × 10^(e+1)` used by `%.3g` when
the decimal exponent lies in `[-4, 3)`. -/
def fixedChars (ds : List ℕ) (e : ℤ) : List Char :=
  if e < 0 then
    '0' :: '.' :: (List.replicate (-e - 1).toNat '0' ++ ds.map digitCh)
  else
    let il := e.toNat + 1
    let padded := ds ++ List.replicate (il - ds.length) 0
    (padded.take il).map digitCh ++
      (if padded.drop il = [] then [] else '.' :: (padded.drop il).map digitCh)

/-- Exponent suffix of scientific notation, `e±XX`, at least two digits. -/
def expChars (e : ℤ) : List Char :=
  'e' :: (if e < 0 then '-' else '+') ::
    (if e.natAbs < 10 then '0' :: [digitCh e.natAbs] else natChars e.natAbs)

/-- Scientific-notation rendering `d₁.d₂d₃e±XX` used by `%.3g` when the
decimal exponent lies outside `[-4, 3)`. -/
def sciChars (ds : List ℕ) (e : ℤ) : List Char :=
  match ds with
  | [] => []
  | d :: rest =>
      digitCh d :: ((if rest = [] then [] else '.' :: rest.map digitCh) ++ expChars e)

/-- Mantissa value rounded to three significant digits, before carry. -/
def sig3 (q : ℚ) : ℕ :=
  (roundHalfEven (q * pow10 (2 - floorLog10 q))).toNat

/-- Three-significant-digit mantissa after the rounding carry `1000 → 100`. -/
def carryN (n0 : ℕ) : ℕ :=
  if 1000 ≤ n0 then 100 else n0

/-- Decimal exponent after the rounding carry. -/
def carryE (n0 : ℕ) (e0 : ℤ) : ℤ :=
  if 1000 ≤ n0 then e0 + 1 else e0

/-- Characters of `format(q, ".3g")` for a positive rational `q`. -/
def posMantissaChars (q : ℚ) : List Char :=
  let e0 := floorLog10 q
  let n0 := sig3 q
  let n := carryN n0
  let e := carryE n0 e0
  let ds := stripZeros [n / 100, n / 10 % 10, n % 10]
  if -4 ≤ e ∧ e < 3 then fixedChars ds e else sciChars ds e

/-- Characters of Python `f"{q:.3g}"`. -/
def formatG3chars (q : ℚ) : List Char :=
  if q = 0 then ['0']
  else if q < 0 then '-' :: posMantissaChars (-q)
  else posMantissaChars q

/-- Python `f"{q:.3g}"`: general format with three significant figures. -/
def formatG3 (q : ℚ) : String :=
  ⟨formatG3chars q⟩

/-- Python `f"{q:.2f}"`: fixed format with two decimal places. -/
def formatFixed2 (q : ℚ) : String :=
  let n := (roundHalfEven (|q| * 100)).toNat
  (if q < 0 then "-" else "") ++ natStr (n / 100) ++ "." ++
    ⟨[digitCh (n / 10 % 10), digitCh (n % 10)]⟩

/-- A scale parameter of the diagram: the string sentinel `'auto'` or a
number fixed by the caller, as held by `ED.dimension` / `space` / `offset`. -/
inductive AutoQ where
  | auto
  | val (q : ℚ)
deriving DecidableEq, Repr

/-- The `position` argument of `add_level`: `None`, an explicit numeric
slot, or a string. -/
inductive PosSpec where
  | none
  | num (q : ℚ)
  | str (s : String)
deriving DecidableEq, Repr

/-- The `label_rot` argument of `add_link`: a string token or a numeric
rotation in degrees. -/
inductive LabelRot where
  | str (s : String)
  | num (q : ℚ)
deriving DecidableEq, Repr

/-- The `EnergyLevel` dataclass. -/
structure EnergyLevel where
  energy : ℚ
  bottom_text : String
  top_text : String
  left_text : String
  right_text : String
  pos : ℚ
  line_kw : StyleDict
  bottom_text_kw : StyleDict
  top_text_kw : StyleDict
  left_text_kw : StyleDict
  right_text_kw : StyleDict
deriving DecidableEq, Repr

/-- The `Link` dataclass. -/
structure Link where
  start_id : ℕ
  end_id : ℕ
  link_kw : StyleDict
  label : Option String
  label_rot : LabelRot
  label_offset : ℚ × ℚ
  label_kwargs : StyleDict
deriving DecidableEq, Repr

/-- The mutable state of an `ED` instance: plot parameters and the four
element collections (electron boxes are not needed by any claim and carry
no state the claims read). -/
structure ED where
  ratio : ℚ
  dimension : AutoQ
  space : AutoQ
  offset : AutoQ
  offset_ratio : ℚ
  pos_number : ℚ
  levels : List EnergyLevel
  links : List Link
  arrows : List (ℕ × ℕ)
deriving DecidableEq, Repr

/-- An `ED()` instance with the constructor's default parameters. -/
def ED.default : ED :=
  { ratio := 16181 / 10000
    dimension := AutoQ.auto
    space := AutoQ.auto
    offset := AutoQ.auto
    offset_ratio := 1 / 50
    pos_number := 0
    levels := []
    links := []
    arrows := [] }

/-- Shared tail of `add_level` once the position is resolved: the
`top_text == 'Energy'` substitution and the append of the new level. -/
def ED.addLevelAt (d : ED) (energy : ℚ) (bottom_text : String) (pos newPosNumber : ℚ)
    (color : String) (top_text : String) (right_text left_text : String)
    (linestyle : String)
    (line_kwargs bottom_text_kwargs top_text_kwargs right_text_kwargs
      left_text_kwargs : StyleDict) :
    Except String (ED × ℕ) :=
  Except.ok
    ({ d with
        pos_number := newPosNumber
        levels := d.levels ++
          [{ energy := energy
             bottom_text := bottom_text
             top_text := if top_text = "Energy" then formatG3 energy else top_text
             left_text := left_text
             right_text := right_text
             pos := pos
             line_kw := dictUnion
               [("color", SVal.str color), ("linestyle", SVal.str linestyle)] line_kwargs
             bottom_text_kw := bottom_text_kwargs
             top_text_kw := top_text_kwargs
             left_text_kw := left_text_kwargs
             right_text_kw := right_text_kwargs }] },
      d.levels.length)

/-- `ED.add_level`.  Returns the updated instance and the new level id, or
the `ValueError` message raised for an invalid `position`. -/
def ED.addLevel (d : ED) (energy : ℚ) (bottom_text : String) (position : PosSpec)
    (color : String) (top_text : String) (right_text left_text : String)
    (linestyle : String)
    (line_kwargs bottom_text_kwargs top_text_kwargs right_text_kwargs
      left_text_kwargs : StyleDict) :
    Except String (ED × ℕ) :=
  match position with
  | PosSpec.none => ED.addLevelAt d energy bottom_text d.pos_number (d.pos_number + 1)
      color top_text right_text left_text linestyle line_kwargs
      bottom_text_kwargs top_text_kwargs right_text_kwargs left_text_kwargs
  | PosSpec.num q => ED.addLevelAt d energy bottom_text q d.pos_number
      color top_text right_text left_text linestyle line_kwargs
      bottom_text_kwargs top_text_kwargs right_text_kwargs left_text_kwargs
  | PosSpec.str s =>
    if s = "last" ∨ s = "l" then
      ED.addLevelAt d energy bottom_text d.pos_number d.pos_number
        color top_text right_text left_text linestyle line_kwargs
        bottom_text_kwargs top_text_kwargs right_text_kwargs left_text_kwargs
    else
      Except.error "Position must be None or last (abrv. l) or an integer or float specifing the position."

/-- `ED.add_arrow`: a pure append. -/
def ED.addArrow (d : ED) (start_level_id end_level_id : ℕ) : ED :=
  { d with arrows := d.arrows ++ [(start_level_id, end_level_id)] }

/-- Validity of the `label_rot` argument, as tested by `add_link`. -/
def validLabelRot : LabelRot → Bool
  | LabelRot.str s =>
      s == "above" || s == "below" || s == "vertical" || s == "horizontal"
  | LabelRot.num _ => true

/-- `ED.add_link`.  Returns the (possibly unchanged) instance together with
the `ValueError` message when one is raised; both checks run before the
link is appended, so on error the instance is returned untouched. -/
def ED.addLink (d : ED) (start_level_id end_level_id : ℕ) (color : String)
    (linestyle : String) (linewidth : ℚ) (link_kwargs : StyleDict)
    (label : Option String) (label_rot : LabelRot) (label_offset : ℚ × ℚ)
    (label_kwargs : StyleDict) : ED × Option String :=
  if hasKey label_kwargs "rotation" then
    (d, some "rotation key found in label_kwargs, use label_rot to specify rotation")
  else if ¬ validLabelRot label_rot then
    (d, some "label_rot invalid value")
  else
    ({ d with links := d.links ++
        [{ start_id := start_level_id
           end_id := end_level_id
           link_kw := dictUnion
             [("color", SVal.str color), ("linestyle", SVal.str linestyle),
              ("linewidth", SVal.num linewidth)] link_kwargs
           label := label
           label_rot := label_rot
           label_offset := label_offset
           label_kwargs := label_kwargs }] },
     none)

/-- Python `max` over a list, `none` on the empty list (where `max`
raises `ValueError`). -/
def listMax : List ℚ → Option ℚ
  | [] => none
  | x :: xs => some (xs.foldl max x)

/-- Python `min` over a list, `none` on the empty list. -/
def listMin : List ℚ → Option ℚ
  | [] => none
  | x :: xs => some (xs.foldl min x)

/-- First half of `ED.__auto_adjust`: when `dimension` or `space` is
`'auto'`, derive both from the energy variation and the slot range. -/
def adjustDim (d : ED) (ev positions : ℚ) : ED :=
  if d.dimension = AutoQ.auto ∨ d.space = AutoQ.auto then
    { d with
        dimension := AutoQ.val (ev * d.ratio / positions * (7 / 10))
        space := AutoQ.val (ev * d.ratio / positions * (3 / 10)) }
  else d

/-- Second half of `ED.__auto_adjust`: when `offset` is `'auto'`, derive
it from the energy variation and `offset_ratio`. -/
def adjustOffset (d : ED) (ev : ℚ) : ED :=
  if d.offset = AutoQ.auto then
    { d with offset := AutoQ.val (ev * d.offset_ratio) }
  else d

/-- `ED.__auto_adjust`.  `max(energies)` is evaluated unconditionally, so
an empty level list always raises (modelled by `Except.error`). -/
def ED.autoAdjust (d : ED) : Except String ED :=
  match listMax (d.levels.map EnergyLevel.energy),
        listMin (d.levels.map EnergyLevel.energy),
        listMax (d.levels.map EnergyLevel.pos),
        listMin (d.levels.map EnergyLevel.pos) with
  | some mxE, some mnE, some mxP, some mnP =>
      Except.ok (adjustOffset (adjustDim d |mxE - mnE| (mxP - mnP + 1)) |mxE - mnE|)
  | _, _, _, _ => Except.error "max arg is an empty sequence"

/-- `ED.get_level_line`: the x-extent of a level's segment.  `none` models
the exceptions raised on an out-of-range id or on arithmetic with the
string sentinel `'auto'`. -/
def ED.getLevelLine (d : ED) (id : ℕ) : Option (ℚ × ℚ) :=
  match d.levels[id]?, d.dimension, d.space with
  | some l, AutoQ.val dim, AutoQ.val sp =>
      some (l.pos * (dim + sp), l.pos * (dim + sp) + dim)
  | _, _, _ => none

/-- The endpoints `(x1, x2, y1, y2)` of a link's line as computed in
`ED.plot`: `x1` is the end of the start level's segment, `x2` the start of
the end level's segment. -/
def ED.linkLine (d : ED) (l : Link) : Option (ℚ × ℚ × ℚ × ℚ) :=
  match d.getLevelLine l.start_id, d.getLevelLine l.end_id,
        d.levels[l.start_id]?, d.levels[l.end_id]? with
  | some s, some e, some sl, some el => some (s.2, e.1, sl.energy, el.energy)
  | _, _, _, _ => none

/-- The gap-arrow data `(x1, x2, y1, y2, label)` computed in `ED.plot` for
one entry of `self.arrows`: both x-coordinates are the midpoint of the
start level's segment and the label is the formatted energy gap. -/
def ED.arrowData (d : ED) (a : ℕ × ℕ) : Option (ℚ × ℚ × ℚ × ℚ × String) :=
  match d.getLevelLine a.1, d.levels[a.1]?, d.levels[a.2]? with
  | some lp, some sl, some el =>
      some (1 / 2 * (lp.1 + lp.2), 1 / 2 * (lp.1 + lp.2), sl.energy, el.energy,
        formatFixed2 (sl.energy - el.energy))
  | _, _, _ => none

/-- Boolean success test for the `Except`-valued operations. -/
def isOkB {α : Type} : Except String α → Bool
  | Except.ok _ => true
  | Except.error _ => false

/-- Two-argument arctangent with the conventions of C / Python
`math.atan2`: the angle of the point `(x, y)` in `(-π, π]`. -/
noncomputable def atan2 (y x : ℝ) : ℝ :=
  if 0 < x then Real.arctan (y / x)
  else if x = 0 then
    (if 0 < y then Real.pi / 2 else if y < 0 then -(Real.pi / 2) else 0)
  else if 0 ≤ y then Real.arctan (y / x) + Real.pi
  else Real.arctan (y / x) - Real.pi

/-- Link-label position and rotation as computed line by line in `ED.plot`
for `label_rot` equal to `"above"` or `"below"`: starting from the link
midpoint, the two coordinates receive the perpendicular displacement and
then the caller offset rotated by the line angle; the rotation handed to
the renderer is the angle in degrees. -/
noncomputable def linkLabelCode (off x1 y1 x2 y2 ox oy : ℝ) (below : Bool) :
    (ℝ × ℝ) × ℝ :=
  let rot := atan2 (y2 - y1) (x2 - x1)
  let p0x := 0.5 * (x1 + x2)
  let p0y := 0.5 * (y1 + y2)
  let p1x := if below then p0x + 2.0 * off * Real.sin rot
             else p0x + -1.5 * off * Real.sin rot
  let p1y := if below then p0y + -2.0 * off * Real.cos rot
             else p0y + 1.5 * off * Real.cos rot
  ((p1x + (ox * Real.cos rot - oy * Real.sin rot),
    p1y + (ox * Real.sin rot + oy * Real.cos rot)),
   rot / Real.pi * 180.0)

/-- Link-label position and rotation as the specification words them: the
midpoint displaced along the perpendicular unit vector `(-sin θ, cos θ)`
by `+1.5·offset` (above) or `-2.0·offset` (below), plus the caller offset
pair rotated by `θ`; rotation is `θ` converted to degrees. -/
noncomputable def linkLabelSpec (off x1 y1 x2 y2 ox oy : ℝ) (below : Bool) :
    (ℝ × ℝ) × ℝ :=
  let θ := atan2 (y2 - y1) (x2 - x1)
  let k := if below then -(2.0 * off) else 1.5 * off
  ((0.5 * (x1 + x2) + k * (-Real.sin θ) + (ox * Real.cos θ - oy * Real.sin θ),
    0.5 * (y1 + y2) + k * Real.cos θ + (ox * Real.sin θ + oy * Real.cos θ)),
   θ * 180.0 / Real.pi)

/-- Decidable equality for `Except` results, for concrete evaluations. -/
instance {ε α : Type} [DecidableEq ε] [DecidableEq α] : DecidableEq (Except ε α) := fun a b =>
  match a, b with
  | Except.ok x, Except.ok y =>
      if h : x = y then Decidable.isTrue (congrArg Except.ok h)
      else Decidable.isFalse (fun hh => h (Except.ok.inj hh))
  | Except.error x, Except.error y =>
      if h : x = y then Decidable.isTrue (congrArg Except.error h)
      else Decidable.isFalse (fun hh => h (Except.error.inj hh))
  | Except.ok _, Except.error _ => Decidable.isFalse (fun hh => Except.noConfusion hh)
  | Except.error _, Except.ok _ => Decidable.isFalse (fun hh => Except.noConfusion hh)

/-- A bare level with the given energy and slot, empty texts and empty
style dictionaries, for concrete instances. -/
def mkLevel (e p : ℚ) : EnergyLevel :=
  { energy := e
    bottom_text := ""
    top_text := ""
    left_text := ""
    right_text := ""
    pos := p
    line_kw := []
    bottom_text_kw := []
    top_text_kw := []
    left_text_kw := []
    right_text_kw := [] }

/-- Concrete instance with energies `{0, 100}` in slots `{0, 1}` and all
scale parameters in auto mode. -/
def c2d : ED :=
  { ED.default with levels := [mkLevel 0 0, mkLevel 100 1] }

/-- Concrete instance with all three scale parameters pinned. -/
def c3d : ED :=
  { ED.default with
      dimension := AutoQ.val 1
      space := AutoQ.val 2
      offset := AutoQ.val 3
      levels := [mkLevel 0 0] }

/-- Concrete instance with numeric scale parameters, for link and arrow
geometry. -/
def c4d : ED :=
  { ED.default with
      dimension := AutoQ.val 2
      space := AutoQ.val 1
      levels := [mkLevel 0 0, mkLevel 100 1] }

/-- A link between the two levels of `c4d`. -/
def c4link : Link :=
  { start_id := 0
    end_id := 1
    link_kw := []
    label := none
    label_rot := LabelRot.str "above"
    label_offset := (0, 0)
    label_kwargs := []
  }

/-- The instance produced by `add_level(0)` on a fresh `ED()` with the
default `top_text`. -/
def c10d : ED :=
  { ED.default with
      pos_number := 1
      levels := [{ energy := 0
                   bottom_text := ""
                   top_text := "0"
                   left_text := ""
                   right_text := ""
                   pos := 0
                   line_kw := [("color", SVal.str "k"), ("linestyle", SVal.str "solid")]
                   bottom_text_kw := []
                   top_text_kw := []
                   left_text_kw := []
                   right_text_kw := [] }] }

/-! Helper lemmas. -/

theorem le_foldl_max (l : List ℚ) (a : ℚ) : a ≤ l.foldl max a := by
  induction l generalizing a with
  | nil => exact le_refl a
  | cons b t ih => exact le_trans (le_max_left a b) (ih (max a b))

theorem foldl_min_le (l : List ℚ) (a : ℚ) : l.foldl min a ≤ a := by
  induction l generalizing a with
  | nil => exact le_refl a
  | cons b t ih => exact le_trans (ih (min a b)) (min_le_left a b)

theorem listMin_le_listMax {l : List ℚ} {a b : ℚ}
    (hmin : listMin l = some a) (hmax : listMax l = some b) : a ≤ b := by
  cases l with
  | nil => simp [listMin] at hmin
  | cons x t =>
    simp only [listMin, listMax, Option.some.injEq] at hmin hmax
    calc a = t.foldl min x := hmin.symm
    _ ≤ x := foldl_min_le t x
    _ ≤ t.foldl max x := le_foldl_max t x
    _ = b := hmax

theorem digitCh_ne_E (d : ℕ) : digitCh d ≠ 'E' := by
  have h : d % 10 = 0 ∨ d % 10 = 1 ∨ d % 10 = 2 ∨ d % 10 = 3 ∨ d % 10 = 4 ∨
      d % 10 = 5 ∨ d % 10 = 6 ∨ d % 10 = 7 ∨ d % 10 = 8 ∨ d % 10 = 9 := by
    omega
  simp only [digitCh]
  rcases h with h|h|h|h|h|h|h|h|h|h <;> rw [h] <;> decide

theorem digitCh_eq_E_iff (d : ℕ) : digitCh d = 'E' ↔ False :=
  iff_false_intro (digitCh_ne_E d)

theorem noE_map (l : List ℕ) : 'E' ∉ l.map digitCh := by
  intro h
  simp only [List.mem_map] at h
  rcases h with ⟨d, -, hd⟩
  exact digitCh_ne_E d hd

theorem noE_fixedChars (ds : List ℕ) (e : ℤ) : 'E' ∉ fixedChars ds e := by
  intro h
  simp only [fixedChars] at h
  split at h
  · simp only [List.mem_cons, List.mem_append, List.mem_replicate] at h
    rcases h with h | h | ⟨-, h⟩ | h
    · exact absurd h (by decide)
    · exact absurd h (by decide)
    · exact absurd h (by decide)
    · exact noE_map ds h
  · rcases List.mem_append.mp h with h | h
    · exact noE_map _ h
    · split at h
      · exact absurd h (List.not_mem_nil _)
      · simp only [List.mem_cons] at h
        rcases h with h | h
        · exact absurd h (by decide)
        · exact noE_map _ h

theorem noE_natChars (n : ℕ) : 'E' ∉ natChars n :=
  noE_map _

theorem noE_expChars (e : ℤ) : 'E' ∉ expChars e := by
  intro h
  simp only [expChars, List.mem_cons] at h
  rcases h with h | h | h
  · exact absurd h (by decide)
  · split at h
    · exact absurd h (by decide)
    · exact absurd h (by decide)
  · split at h
    · simp only [List.mem_cons] at h
      rcases h with h | h | h
      · exact absurd h (by decide)
      · exact digitCh_ne_E _ h.symm
      · exact List.not_mem_nil _ h
    · exact noE_natChars _ h

theorem noE_sciChars (ds : List ℕ) (e : ℤ) : 'E' ∉ sciChars ds e := by
  intro h
  cases ds with
  | nil => exact List.not_mem_nil _ h
  | cons d rest =>
    simp only [sciChars, List.mem_cons] at h
    rcases h with h | h
    · exact digitCh_ne_E d h.symm
    · rcases List.mem_append.mp h with h | h
      · split at h
        · exact absurd h (List.not_mem_nil _)
        · simp only [List.mem_cons] at h
          rcases h with h | h
          · exact absurd h (by decide)
          · exact noE_map _ h
      · exact noE_expChars e h

theorem noE_posMantissaChars (q : ℚ) : 'E' ∉ posMantissaChars q := by
  intro h
  simp only [posMantissaChars] at h
  split at h
  · exact noE_fixedChars _ _ h
  · exact noE_sciChars _ _ h

theorem noE_formatG3chars (q : ℚ) : 'E' ∉ formatG3chars q := by
  intro h
  simp only [formatG3chars] at h
  split at h
  · exact absurd h (by decide)
  · split at h
    · simp only [List.mem_cons] at h
      rcases h with h | h
      · exact absurd h (by decide)
      · exact noE_posMantissaChars _ h
    · exact noE_posMantissaChars _ h

theorem formatG3_ne_Energy (q : ℚ) : formatG3 q ≠ "Energy" := by
  intro h
  have hmem : 'E' ∈ formatG3chars q := by
    have hdata : (formatG3 q).data = formatG3chars q := rfl
    rw [h] at hdata
    rw [← hdata]
    decide
  exact noE_formatG3chars q hmem

theorem getElem?_concat_length {α : Type} (l : List α) (a : α) :
    (l ++ [a])[l.length]? = some a := by
  induction l with
  | nil => rfl
  | cons x t ih =>
    show (x :: (t ++ [a]))[t.length + 1]? = some a
    rw [List.getElem?_cons_succ]
    exact ih

/-- C1 (code evaluated at the failing input): after `add_level(0)` and
`add_level(-5.4)` with auto position, `add_level(-15.6, position='last')`
stores slot sequence `[0, 1, 2]`: the auto slots increase by 1 from 0, but
the `'last'` level receives slot 2, the value of the running counter, not
slot 1 of the most recently auto-assigned level as the claim and the
method's own docstring state. -/
theorem addLevel_last_slot_run :
    ((ED.addLevel ED.default 0 "" PosSpec.none "k" "Energy" "" "" "solid"
        [] [] [] [] []).bind fun r1 =>
      (ED.addLevel r1.1 (-27/5) "" PosSpec.none "k" "Energy" "" "" "solid"
        [] [] [] [] []).bind fun r2 =>
      (ED.addLevel r2.1 (-78/5) "" (PosSpec.str "last") "k" "Energy" "" "" "solid"
        [] [] [] [] []).map fun r3 =>
        r3.1.levels.map EnergyLevel.pos) = Except.ok [0, 1, 2] := by
  norm_num [ED.addLevel, ED.addLevelAt, ED.default, Except.bind, Except.map]

/-- C8: `__auto_adjust` on a model with zero levels always raises (Python
evaluates `max` of the empty energy list), and never produces scale
parameters. -/
theorem autoAdjust_empty_raises (d : ED) (h : d.levels = []) :
    d.autoAdjust = Except.error "max arg is an empty sequence" := by
  unfold ED.autoAdjust
  rw [h]
  rfl

/-- C8 witness: a fresh `ED()` instance. -/
theorem autoAdjust_empty_raises_witness :
    ED.default.autoAdjust = Except.error "max arg is an empty sequence" :=
  autoAdjust_empty_raises ED.default rfl

/-- C9 (amended): `add_level` accepts exactly the three documented position
forms plus the abbreviation `'l'`, and raises a `ValueError` for every
other argument. -/
theorem addLevel_position_validation (d : ED) (energy : ℚ) (bt : String)
    (p : PosSpec) (c tt rt lt ls : String) (k1 k2 k3 k4 k5 : StyleDict) :
    isOkB (ED.addLevel d energy bt p c tt rt lt ls k1 k2 k3 k4 k5) = true ↔
      (p = PosSpec.none ∨ (∃ q, p = PosSpec.num q) ∨
        p = PosSpec.str "last" ∨ p = PosSpec.str "l") := by
  cases p with
  | none => simp [ED.addLevel, ED.addLevelAt, isOkB]
  | num q => simp [ED.addLevel, ED.addLevelAt, isOkB]
  | str s =>
    simp only [ED.addLevel]
    split
    case isTrue h =>
      simp only [ED.addLevelAt, isOkB, true_iff]
      rcases h with h | h <;> simp [h]
    case isFalse h =>
      simp only [isOkB, Bool.false_eq_true, false_iff]
      push_neg at h
      simp [h.1, h.2]

/-- C9 (counterexample): the position string `'l'` is none of the three
forms the claim allows, yet `add_level` accepts it without error. -/
theorem addLevel_accepts_l :
    isOkB (ED.addLevel ED.default 0 "" (PosSpec.str "l") "k" "Energy" "" ""
        "solid" [] [] [] [] []) = true ∧
      PosSpec.str "l" ≠ PosSpec.str "last" ∧ PosSpec.str "l" ≠ PosSpec.none := by
  decide

/-- C2: with all three scale parameters in auto mode and at least one
level, `__auto_adjust` sets `dimension = 0.7·span·ratio/(maxslot − minslot + 1)`,
`space = 0.3` of the same unit, and `offset = span·offset_ratio`, where
`span = max energy − min energy`; `offset_ratio` defaults to `1/50 = 0.02`. -/
theorem autoAdjust_formulas (d : ED) (mxE mnE mxP mnP : ℚ)
    (hmxE : listMax (d.levels.map EnergyLevel.energy) = some mxE)
    (hmnE : listMin (d.levels.map EnergyLevel.energy) = some mnE)
    (hmxP : listMax (d.levels.map EnergyLevel.pos) = some mxP)
    (hmnP : listMin (d.levels.map EnergyLevel.pos) = some mnP)
    (hdim : d.dimension = AutoQ.auto) (hsp : d.space = AutoQ.auto)
    (hoff : d.offset = AutoQ.auto) :
    d.autoAdjust = Except.ok { d with
      dimension := AutoQ.val (7/10 * ((mxE - mnE) * d.ratio / (mxP - mnP + 1)))
      space := AutoQ.val (3/10 * ((mxE - mnE) * d.ratio / (mxP - mnP + 1)))
      offset := AutoQ.val ((mxE - mnE) * d.offset_ratio) } ∧
    ED.default.offset_ratio = 1/50 := by
  refine ⟨?_, rfl⟩
  have hle : mnE ≤ mxE := listMin_le_listMax hmnE hmxE
  have habs : |mxE - mnE| = mxE - mnE := abs_of_nonneg (by linarith)
  unfold ED.autoAdjust
  rw [hmxE, hmnE, hmxP, hmnP]
  simp only [adjustDim, adjustOffset, hdim, hsp, hoff, habs, eq_self_iff_true,
    true_or, if_true]
  congr 2 <;> ring_nf

/-- C2 witness: energies `{0, 100}` in slots `{0, 1}` with the default
ratio `1.6181` give dimension `56.6335` and space `24.2715` exactly. -/
theorem autoAdjust_formulas_witness :
    ED.autoAdjust c2d = Except.ok { c2d with
      dimension := AutoQ.val (7/10 * ((100 - 0) * c2d.ratio / (1 - 0 + 1)))
      space := AutoQ.val (3/10 * ((100 - 0) * c2d.ratio / (1 - 0 + 1)))
      offset := AutoQ.val ((100 - 0) * c2d.offset_ratio) } ∧
    (7/10 * ((100 - 0) * c2d.ratio / (1 - 0 + 1)) : ℚ) = 566335/10000 ∧
    (3/10 * ((100 - 0) * c2d.ratio / (1 - 0 + 1)) : ℚ) = 242715/10000 :=
  ⟨(autoAdjust_formulas c2d 100 0 1 0 rfl rfl rfl rfl rfl rfl rfl).1,
    by norm_num [c2d, ED.default], by norm_num [c2d, ED.default]⟩

theorem adjustDim_of_pinned (d : ED) (ev p : ℚ)
    (h1 : d.dimension ≠ AutoQ.auto) (h2 : d.space ≠ AutoQ.auto) :
    adjustDim d ev p = d := by
  simp [adjustDim, h1, h2]

theorem adjustDim_offset (d : ED) (ev p : ℚ) :
    (adjustDim d ev p).offset = d.offset := by
  unfold adjustDim
  split <;> rfl

theorem adjustOffset_dimension (d : ED) (ev : ℚ) :
    (adjustOffset d ev).dimension = d.dimension := by
  unfold adjustOffset
  split <;> rfl

theorem adjustOffset_space (d : ED) (ev : ℚ) :
    (adjustOffset d ev).space = d.space := by
  unfold adjustOffset
  split <;> rfl

theorem adjustOffset_of_pinned (d : ED) (ev : ℚ) (h : d.offset ≠ AutoQ.auto) :
    adjustOffset d ev = d := by
  simp [adjustOffset, h]

/-- C3 (amended): `__auto_adjust` leaves `offset` unchanged whenever it is
pinned to a number, and leaves `dimension` and `space` unchanged whenever
both are pinned; pinning only one of `dimension`/`space` does not protect
it, because the code recomputes both when either is `'auto'`. -/
theorem autoAdjust_pinned_preserved (d d2 : ED)
    (h : d.autoAdjust = Except.ok d2) :
    (d.dimension ≠ AutoQ.auto → d.space ≠ AutoQ.auto →
      d2.dimension = d.dimension ∧ d2.space = d.space) ∧
    (d.offset ≠ AutoQ.auto → d2.offset = d.offset) := by
  unfold ED.autoAdjust at h
  split at h
  case h_1 mxE mnE mxP mnP heq1 heq2 heq3 heq4 =>
    injection h with h
    subst h
    refine ⟨fun h1 h2 => ?_, fun h3 => ?_⟩
    · rw [adjustOffset_dimension, adjustOffset_space, adjustDim_of_pinned _ _ _ h1 h2]
      exact ⟨rfl, rfl⟩
    · rw [adjustOffset_of_pinned]
      · exact adjustDim_offset _ _ _
      · rw [adjustDim_offset]
        exact h3
  case h_2 => exact absurd h (by simp)

/-- C3 witness: an instance with all three parameters pinned passes
through `__auto_adjust` unchanged. -/
theorem autoAdjust_pinned_preserved_witness :
    (c3d.dimension = c3d.dimension ∧ c3d.space = c3d.space) ∧
      c3d.offset = c3d.offset :=
  ⟨(autoAdjust_pinned_preserved c3d c3d (by simp
      [ED.autoAdjust, c3d, mkLevel, ED.default, listMax, listMin,
        adjustDim, adjustOffset])).1 (by decide) (by decide),
   (autoAdjust_pinned_preserved c3d c3d (by simp
      [ED.autoAdjust, c3d, mkLevel, ED.default, listMax, listMin,
        adjustDim, adjustOffset])).2 (by decide)⟩

/-- C3 (counterexample): pinning `dimension` to `5` while leaving `space`
as `'auto'` does not preserve `dimension`: on levels with energies
`{0, 100}` in slots `{0, 1}` it is overwritten with `56.6335`. -/
theorem autoAdjust_overwrites_pinned_dimension :
    ED.autoAdjust { c2d with dimension := AutoQ.val 5 } = Except.ok
      { c2d with
        dimension := AutoQ.val (113267/2000)
        space := AutoQ.val (48543/2000)
        offset := AutoQ.val 2 } ∧
    AutoQ.val (113267/2000 : ℚ) ≠ AutoQ.val 5 := by
  constructor
  · norm_num [ED.autoAdjust, c2d, mkLevel, ED.default, listMax, listMin,
      adjustDim, adjustOffset]
  · intro h
    rw [AutoQ.val.injEq] at h
    norm_num at h

/-- C4: a link's line runs from the end of the start level's segment,
`x1 = slot·(dimension+space) + dimension`, to the start of the end level's
segment, `x2 = slot·(dimension+space)`, at `y1 = energy(start)` and
`y2 = energy(end)`; for adjacent slots `x2 = x1 + space`, so the link
exactly spans the gap and never overlaps either segment. -/
theorem linkLine_geometry (d : ED) (l : Link) (dim sp : ℚ) (sl el : EnergyLevel)
    (hdim : d.dimension = AutoQ.val dim) (hsp : d.space = AutoQ.val sp)
    (hsl : d.levels[l.start_id]? = some sl) (hel : d.levels[l.end_id]? = some el) :
    d.linkLine l = some (sl.pos * (dim + sp) + dim, el.pos * (dim + sp),
      sl.energy, el.energy) ∧
    (el.pos = sl.pos + 1 →
      el.pos * (dim + sp) = (sl.pos * (dim + sp) + dim) + sp) := by
  constructor
  · unfold ED.linkLine ED.getLevelLine
    rw [hdim, hsp, hsl, hel]
  · intro hadj
    rw [hadj]
    ring_nf

/-- C4 witness: dimension `2`, space `1`, levels at slots `0` and `1` with
energies `0` and `100`: the link runs from `x1 = 2` to `x2 = 3 = x1 + 1`. -/
theorem linkLine_geometry_witness :
    ED.linkLine c4d c4link = some (2, 3, 0, 100) ∧
      ((1 : ℚ) * (2 + 1) = (0 * (2 + 1) + 2) + 1) := by
  have h := linkLine_geometry c4d c4link 2 1 (mkLevel 0 0) (mkLevel 100 1)
    rfl rfl rfl rfl
  refine ⟨?_, ?_⟩
  · rw [h.1]
    norm_num [mkLevel]
  · have h2 := h.2 (by norm_num [mkLevel])
    norm_num [mkLevel] at h2
    norm_num [h2]

/-- C6: the gap-arrow between two levels is a vertical line, both of whose
endpoints sit at the midpoint of the start level's segment,
`x = slot·(dimension+space) + dimension/2`, spanning `y1 = energy(start)`
to `y2 = energy(end)`; its label is `energy(start) − energy(end)` formatted
to two decimal places with sign preserved, and for start energy `20` and
end energy `−9.7` the label is `"29.70"`. -/
theorem arrowData_geometry (d : ED) (i j : ℕ) (dim sp : ℚ) (sl el : EnergyLevel)
    (hdim : d.dimension = AutoQ.val dim) (hsp : d.space = AutoQ.val sp)
    (hsl : d.levels[i]? = some sl) (hel : d.levels[j]? = some el) :
    d.arrowData (i, j) = some (sl.pos * (dim + sp) + dim / 2,
      sl.pos * (dim + sp) + dim / 2, sl.energy, el.energy,
      formatFixed2 (sl.energy - el.energy)) ∧
    formatFixed2 (20 - (-97/10 : ℚ)) = "29.70" := by
  constructor
  · unfold ED.arrowData ED.getLevelLine
    rw [hdim, hsp]
    simp only [hsl, hel, Option.some.injEq, Prod.mk.injEq, and_true]
    exact ⟨by ring_nf, by ring_nf⟩
  · have harg : (20 : ℚ) - (-97/10) = 297/10 := by norm_num
    rw [harg]
    simp only [formatFixed2]
    have h1 : ¬((297/10 : ℚ) < 0) := by norm_num
    have h2 : |(297/10 : ℚ)| * 100 = 2970 := by
      rw [abs_of_nonneg (by norm_num : (0:ℚ) ≤ 297/10)]
      norm_num
    rw [h2, if_neg h1]
    have h3 : roundHalfEven (2970 : ℚ) = 2970 := by
      unfold roundHalfEven
      norm_num
    rw [h3]
    decide

/-- C6 witness: in the concrete instance the arrow between levels `0` and
`1` is the vertical segment at `x = 1` from `y = 0` to `y = 100`. -/
theorem arrowData_geometry_witness :
    ED.arrowData c4d (0, 1) = some (1, 1, 0, 100, formatFixed2 (0 - 100)) ∧
      formatFixed2 (20 - (-97/10 : ℚ)) = "29.70" := by
  have h := arrowData_geometry c4d 0 1 2 1 (mkLevel 0 0) (mkLevel 100 1)
    rfl rfl rfl rfl
  refine ⟨?_, h.2⟩
  rw [h.1]
  norm_num [mkLevel]

/-- C5: for `label_rot` `"above"` or `"below"`, the link label is placed
at the midpoint `(0.5(x1+x2), 0.5(y1+y2))` displaced along the
perpendicular unit vector `(−sin θ, cos θ)` by `+1.5·offset` (above) or
`−2.0·offset` (below), with `θ = atan2(y2−y1, x2−x1)`, then further
displaced by the caller offset `(ox, oy)` rotated by `θ`; the label
rotation is `θ` in degrees. -/
theorem linkLabel_above_below (off x1 y1 x2 y2 ox oy : ℝ) (below : Bool) :
    linkLabelCode off x1 y1 x2 y2 ox oy below =
      linkLabelSpec off x1 y1 x2 y2 ox oy below := by
  unfold linkLabelCode linkLabelSpec
  cases below <;>
  · simp only [if_true, if_false, Bool.false_eq_true, Prod.mk.injEq]
    refine ⟨⟨by ring_nf, by ring_nf⟩, by ring_nf⟩

/-- C7: `add_link` reports an error exactly when the label style dict
contains a `rotation` key or `label_rot` is neither one of the four
symbolic tokens nor numeric; on error the instance (in particular its link
collection) is unchanged, and on success exactly the new link is
appended. -/
theorem addLink_validation (d : ED) (si ei : ℕ) (c ls : String) (lw : ℚ)
    (lk : StyleDict) (lab : Option String) (lr : LabelRot) (lo : ℚ × ℚ)
    (lkw : StyleDict) :
    ((ED.addLink d si ei c ls lw lk lab lr lo lkw).2 ≠ none ↔
      (hasKey lkw "rotation" = true ∨ validLabelRot lr = false)) ∧
    ((ED.addLink d si ei c ls lw lk lab lr lo lkw).2 ≠ none →
      (ED.addLink d si ei c ls lw lk lab lr lo lkw).1 = d) ∧
    ((ED.addLink d si ei c ls lw lk lab lr lo lkw).2 = none →
      (ED.addLink d si ei c ls lw lk lab lr lo lkw).1.links =
        d.links ++ [Link.mk si ei (dictUnion [("color", SVal.str c),
          ("linestyle", SVal.str ls), ("linewidth", SVal.num lw)] lk)
          lab lr lo lkw]) := by
  unfold ED.addLink
  by_cases h1 : hasKey lkw "rotation" <;> by_cases h2 : validLabelRot lr <;>
    simp [h1, h2]

/-- C7 witness: a label style dict carrying a `rotation` key makes
`add_link` raise and leaves a fresh instance unchanged. -/
theorem addLink_validation_witness :
    (ED.addLink ED.default 0 1 "k" "dashed" 1 [] none (LabelRot.str "above")
        (0, 0) [("rotation", SVal.num 0)]).2 ≠ none ∧
    (ED.addLink ED.default 0 1 "k" "dashed" 1 [] none (LabelRot.str "above")
        (0, 0) [("rotation", SVal.num 0)]).1 = ED.default := by
  have h := addLink_validation ED.default 0 1 "k" "dashed" 1 [] none
    (LabelRot.str "above") (0, 0) [("rotation", SVal.num 0)]
  have herr := h.1.mpr (Or.inl (by decide))
  exact ⟨herr, h.2.1 herr⟩

theorem addLevelAt_top_text (d : ED) (e : ℚ) (bt : String) (pos pn : ℚ)
    (c tt rt lt ls : String) (k1 k2 k3 k4 k5 : StyleDict) (d2 : ED) (i : ℕ)
    (h : ED.addLevelAt d e bt pos pn c tt rt lt ls k1 k2 k3 k4 k5 =
      Except.ok (d2, i)) :
    (d2.levels[i]?).map EnergyLevel.top_text =
      some (if tt = "Energy" then formatG3 e else tt) := by
  unfold ED.addLevelAt at h
  injection h with h
  have h1 := congrArg Prod.fst h
  have h2 := congrArg Prod.snd h
  dsimp only at h1 h2
  subst h1
  subst h2
  dsimp only
  rw [getElem?_concat_length]
  rfl

/-- C10: when `add_level` succeeds with the default `top_text` value
`'Energy'`, the stored top text is the energy formatted to three
significant figures, never the literal string `'Energy'`; any other
`top_text`, including the empty string, is stored verbatim. -/
theorem addLevel_top_text (d : ED) (e : ℚ) (bt : String) (p : PosSpec)
    (c tt rt lt ls : String) (k1 k2 k3 k4 k5 : StyleDict) (d2 : ED) (i : ℕ)
    (h : ED.addLevel d e bt p c tt rt lt ls k1 k2 k3 k4 k5 = Except.ok (d2, i)) :
    (d2.levels[i]?).map EnergyLevel.top_text =
      some (if tt = "Energy" then formatG3 e else tt) ∧
    (d2.levels[i]?).map EnergyLevel.top_text ≠ some "Energy" := by
  have key : (d2.levels[i]?).map EnergyLevel.top_text =
      some (if tt = "Energy" then formatG3 e else tt) := by
    unfold ED.addLevel at h
    split at h
    · exact addLevelAt_top_text _ _ _ _ _ _ _ _ _ _ _ _ _ _ _ _ _ h
    · exact addLevelAt_top_text _ _ _ _ _ _ _ _ _ _ _ _ _ _ _ _ _ h
    · split at h
      · exact addLevelAt_top_text _ _ _ _ _ _ _ _ _ _ _ _ _ _ _ _ _ h
      · exact absurd h (by simp)
  refine ⟨key, ?_⟩
  rw [key]
  by_cases htt : tt = "Energy"
  · rw [if_pos htt]
    intro hc
    exact formatG3_ne_Energy e (Option.some.inj hc)
  · rw [if_neg htt]
    intro hc
    exact htt (Option.some.inj hc)

/-- C10 witness: `add_level(0)` with the default `top_text` stores `"0"`,
the energy formatted to three significant figures, not `'Energy'`. -/
theorem addLevel_top_text_witness :
    (c10d.levels[0]?).map EnergyLevel.top_text =
      some (if "Energy" = "Energy" then formatG3 0 else "Energy") ∧
    (c10d.levels[0]?).map EnergyLevel.top_text ≠ some "Energy" :=
  addLevel_top_text ED.default 0 "" PosSpec.none "k" "Energy" "" "" "solid"
    [] [] [] [] [] c10d 0 (by
      have hf : formatG3 0 = "0" := by decide
      norm_num [ED.addLevel, ED.addLevelAt, ED.default, c10d, dictUnion, hf])
